import Mathlib

/-!
# A shallow embedding of the quantum-circuit diagram editor (src/main.py)

The program is a PyQt6 diagram editor.  Its meaningful logic is:

* two grid-snapping policies — a floor snap used when a palette icon is
  dropped (`SimulationWindow.dropEvent`, lines 227-242) and a
  round-to-nearest snap used when a placed component is released after a
  drag (`CircuitComponent.mouseReleaseEvent`, lines 40-59);
* proximity-based connection resolution between a moved gate and the
  qubits in the scene (`SimulationScene.check_connections`, lines
  129-162);
* connection-line maintenance (`SimulationScene.add_connection_line`,
  lines 164-184);
* drop-payload parsing (`SimulationWindow.dropEvent`, lines 227-242).

Modelling conventions:

* Raw (pre-snap) positions are continuous; they are modelled as `ℚ`
  (the idealisation of the source's floating-point `QPointF`).
* Settled scene positions are integers: every position stored on a
  component is either a drop position (an integer point, since the drop
  handler converts the event position with `toPoint()` before the
  modulo snap) or an integer multiple of the integer grid size produced
  by one of the snaps, or the qubit-relative realignment
  `item.x() + grid_size * 6`, again an integer.  Scene coordinates are
  therefore `ℤ`.
* Python objects are identified by a numeric id `cid`.  The object
  heap (`Scene.heap`) holds every component ever created — a component
  removed from the scene still exists and is still reachable through
  `connected_prev` / `connected_next` references, exactly as a Python
  object kept alive by a reference.  Scene membership and the iteration
  order of `QGraphicsScene.items()` are modelled by the list
  `Scene.sceneComps` (component ids) together with `Scene.sceneLines`
  (connection lines).  `check_connections` skips line items with an
  `isinstance` test and `add_connection_line` skips non-line items, so
  keeping the two kinds of scene items in separate lists, each in its
  `items()` order, is faithful.
* Mutation of a Python attribute is modelled by rewriting the heap
  entry with the matching `cid`.
* `QGraphicsScene.removeItem` is total in Qt (passing a null item only
  emits a warning), so the model's `removeItem` accepts an optional
  component reference and leaves the scene unchanged on `none`.  The
  arguments of the `removeItem` calls made during connection
  resolution are additionally returned as an event log, so that
  theorems can talk about which removal calls were issued.
-/

/-- Component-kind tag for qubits (src/main.py line 9). -/
def TYPE_QUBIT : Nat := 0

/-- Component-kind tag for gates (src/main.py line 10). -/
def TYPE_GATE : Nat := 1

/-- A continuous (pre-snap) position, the idealisation of `QPointF`. -/
structure PointF where
  x : ℚ
  y : ℚ
deriving DecidableEq

/-- A settled scene position (integer pixel coordinates). -/
structure Point where
  x : ℤ
  y : ℤ
deriving DecidableEq

/-- Python's `%` on a float `x` and a positive cell size `g`: the
remainder with the sign of the divisor, `x - g * ⌊x / g⌋`. -/
def pymod (x g : ℚ) : ℚ := x - g * ⌊x / g⌋

/-- The drop-time floor snap (src/main.py line 240):
`itemPosition - QPointF(itemPosition.x() % scale, itemPosition.y() % scale)`. -/
def snap_floor (p : PointF) (g : ℚ) : PointF :=
  ⟨p.x - pymod p.x g, p.y - pymod p.y g⟩

/-- Python's built-in `round`: round half to even. -/
def pyround (x : ℚ) : ℤ :=
  let f := ⌊x⌋
  if x - f < 1/2 then f
  else if (1:ℚ)/2 < x - f then f + 1
  else if f % 2 = 0 then f else f + 1

/-- The drag-release nearest snap on one axis (src/main.py lines 48-49):
`round(curr_pos.x() / self.grid_size) * self.grid_size`. -/
def snap_nearest (x g : ℚ) : ℚ := (pyround (x / g) : ℚ) * g

/-- The drag-release nearest snap applied to both axes of a position. -/
def snapPointF (p : PointF) (g : ℚ) : PointF :=
  ⟨snap_nearest p.x g, snap_nearest p.y g⟩

/-- Manhattan length of the difference of two settled positions
(src/main.py line 146: `(component.pos() - item.pos()).manhattanLength()`). -/
def manhattanLength (p q : Point) : ℤ := |p.x - q.x| + |p.y - q.y|

/-- A placed circuit component (class `CircuitComponent`, src/main.py
lines 12-30).  `cid` is the Python object identity; `pixmap_w` and
`pixmap_h` are the dimensions of the component's pixmap, used for the
connection-line endpoints. -/
structure CircuitComponent where
  cid : Nat
  component_type : Nat
  component_name : String
  grid_size : ℤ
  pixmap_w : ℤ
  pixmap_h : ℤ
  pos : Point
  connected_prev : Option Nat
  connected_next : Option Nat
deriving DecidableEq

/-- A connection line (`QGraphicsLineItem` tagged with `line.qubit` and
`line.gate`, src/main.py lines 175-183).  The endpoint coordinates are
continuous because of the half-height midpoints. -/
structure ConnLine where
  x1 : ℚ
  y1 : ℚ
  x2 : ℚ
  y2 : ℚ
  qubit : Nat
  gate : Nat

/-- The canvas state (`SimulationScene`): the object heap of all created
components, the ids of the components currently in the scene in
`items()` order, and the connection lines currently in the scene. -/
structure Scene where
  heap : List CircuitComponent
  sceneComps : List Nat
  sceneLines : List ConnLine

/-- Dereference a component id on the heap (follow a Python object
reference). -/
def Scene.find? (s : Scene) (cid : Nat) : Option CircuitComponent :=
  s.heap.find? (fun c => c.cid == cid)

/-- Overwrite the heap entry with `c.cid` by `c` (attribute mutation on
the object with that identity). -/
def Scene.updateComp (s : Scene) (c : CircuitComponent) : Scene :=
  { s with heap := s.heap.map (fun d => if d.cid = c.cid then c else d) }

/-- Model of `QGraphicsScene.removeItem` applied to a component
reference that may be `None` (src/main.py line 151).  Qt's
`removeItem(nullptr)` only emits a warning, so `none` is a no-op; a real
reference is removed from the scene (the object itself survives on the
heap). -/
def Scene.removeItem (s : Scene) (o : Option Nat) : Scene :=
  match o with
  | none => s
  | some cid => { s with sceneComps := s.sceneComps.filter (fun x => x != cid) }

/-- Model of `SimulationScene.add_connection_line` (src/main.py lines
164-184): remove every line already tagged with this exact
(qubit, gate) pair, then add a fresh line from the qubit's right edge at
its vertical pixmap midpoint to the gate's left edge at its vertical
pixmap midpoint. -/
def Scene.add_connection_line (s : Scene) (qubit gate : CircuitComponent) : Scene :=
  let kept := s.sceneLines.filter (fun l => !(l.qubit == qubit.cid && l.gate == gate.cid))
  let line : ConnLine :=
    ⟨(qubit.pos.x : ℚ) + (qubit.pixmap_w : ℚ),
     (qubit.pos.y : ℚ) + (qubit.pixmap_h : ℚ) / 2,
     (gate.pos.x : ℚ),
     (gate.pos.y : ℚ) + (gate.pixmap_h : ℚ) / 2,
     qubit.cid, gate.cid⟩
  { s with sceneLines := kept ++ [line] }

/-- The body of the connection branch of `check_connections`
(src/main.py lines 149-162), executed when the moving gate `g` has
settled within threshold of the qubit `q`:

* if `q.connected_next` is not the moving gate, call
  `removeItem(q.connected_next)` (logged);
* realign the gate to `(q.x + grid_size * 6, q.y)`;
* set `g.connected_prev = q` and `q.connected_next = g`;
* redraw the connection line for the pair. -/
def Scene.connectTo (s : Scene) (g q : CircuitComponent) : Scene × List (Option Nat) :=
  let evict := q.connected_next ≠ some g.cid
  let s1 := if evict then s.removeItem q.connected_next else s
  let log := if evict then [q.connected_next] else []
  let g1 : CircuitComponent :=
    { g with pos := ⟨q.pos.x + g.grid_size * 6, q.pos.y⟩, connected_prev := some q.cid }
  let q1 : CircuitComponent := { q with connected_next := some g.cid }
  let s2 := (s1.updateComp g1).updateComp q1
  (s2.add_connection_line q1 g1, log)

/-- The scan loop of `check_connections` (src/main.py lines 139-162)
over the component items of the scene in `items()` order: skip the
moving component itself, skip ids without a component object, require a
gate-to-qubit pairing, compare the Manhattan distance against eight
grid cells, and connect to the first hit, returning immediately. -/
def Scene.check_loop (s : Scene) (g : CircuitComponent) : List Nat → Scene × List (Option Nat)
  | [] => (s, [])
  | cid :: rest =>
    if cid = g.cid then s.check_loop g rest
    else
      match s.find? cid with
      | none => s.check_loop g rest
      | some item =>
        if g.component_type = TYPE_GATE ∧ item.component_type = TYPE_QUBIT then
          if manhattanLength g.pos item.pos ≤ g.grid_size * 8 then
            s.connectTo g item
          else s.check_loop g rest
        else s.check_loop g rest

/-- Model of `SimulationScene.check_connections` (src/main.py lines
129-162) on the component with identity `cid`: qubits never initiate a
connection check; otherwise scan the scene's component items.  The
second result is the log of `removeItem` arguments. -/
def Scene.check_connections (s : Scene) (cid : Nat) : Scene × List (Option Nat) :=
  match s.find? cid with
  | none => (s, [])
  | some component =>
    if component.component_type = TYPE_QUBIT then (s, [])
    else s.check_loop component s.sceneComps

/-- Model of `CircuitComponent.mouseReleaseEvent` (src/main.py lines
40-59) for the component with identity `cid`: the continuous position
`curr_pos` at which the drag released is snapped per axis to the
nearest multiple of the component's grid size, stored, and connection
resolution runs. -/
def Scene.mouseReleaseEvent (s : Scene) (cid : Nat) (curr_pos : PointF) :
    Scene × List (Option Nat) :=
  match s.find? cid with
  | none => (s, [])
  | some c =>
    let snapped_x : ℤ := pyround (curr_pos.x / (c.grid_size : ℚ)) * c.grid_size
    let snapped_y : ℤ := pyround (curr_pos.y / (c.grid_size : ℚ)) * c.grid_size
    let s1 := s.updateComp { c with pos := ⟨snapped_x, snapped_y⟩ }
    s1.check_connections cid

/-- Python's `str.split(sep)` helper over the character list, with the
accumulator holding the current field reversed. -/
def pySplitAux (sep : Char) : List Char → List Char → List String
  | [], acc => [String.mk acc.reverse]
  | c :: cs, acc =>
    if c == sep then String.mk acc.reverse :: pySplitAux sep cs []
    else pySplitAux sep cs (c :: acc)

/-- Python's `str.split(sep)` for a one-character separator: always at
least one field, empty fields preserved. -/
def pySplit (sep : Char) (t : String) : List String := pySplitAux sep t.toList []

/-- Python's `str.isnumeric` restricted to ASCII payloads: non-empty and
all digits (the payloads the program builds are ASCII). -/
def pyIsNumeric (t : String) : Bool := !t.toList.isEmpty && t.toList.all Char.isDigit

/-- Python's `int` on a digit string. -/
def digitsToNat (l : List Char) : Nat := l.foldl (fun acc c => acc * 10 + (c.toNat - 48)) 0

/-- The component-kind parse of `dropEvent` (src/main.py line 231):
`int(data[0]) if data[0].isnumeric() else TYPE_QUBIT`. -/
def parse_component_type (t : String) : Nat :=
  if pyIsNumeric t then digitsToNat t.toList else TYPE_QUBIT

/-- Model of `SimulationWindow.dropEvent` (src/main.py lines 227-242):
split the mime text on commas; parse the kind from field 0, defaulting
to the qubit kind when the field is not numeric; take the name from
field 1 (when there is no field 1 the handler dies on an `IndexError`
and no component is created, modelled by `none`); floor-snap the
integer drop position with the window's cell size; create the component
(a fresh identity `fresh`; `pw`, `ph` are the pixmap dimensions of the
named asset) and add it to the scene.  A newly added item is on top,
hence first in `items()` order. -/
def Scene.dropEvent (s : Scene) (text : String) (itemPosition : Point) (scale : ℤ)
    (fresh : Nat) (pw ph : ℤ) : Option Scene :=
  match pySplit ',' text with
  | d0 :: d1 :: _ =>
    let pos : Point :=
      ⟨itemPosition.x - itemPosition.x % scale, itemPosition.y - itemPosition.y % scale⟩
    let item : CircuitComponent :=
      ⟨fresh, parse_component_type d0, d1, scale, pw, ph, pos, none, none⟩
    some { s with heap := s.heap ++ [item], sceneComps := fresh :: s.sceneComps }
  | _ => none

/-- The moved gate `g` treats the scene item with identity `cid` as a
connection candidate: it is a different item, it dereferences to a
component, the pairing is gate-to-qubit, and the Manhattan distance is
within eight grid cells (the guards of src/main.py lines 140-148). -/
def Scene.candB (s : Scene) (g : CircuitComponent) (cid : Nat) : Bool :=
  if cid = g.cid then false
  else
    match s.find? cid with
    | none => false
    | some item =>
      if g.component_type = TYPE_GATE ∧ item.component_type = TYPE_QUBIT then
        decide (manhattanLength g.pos item.pos ≤ g.grid_size * 8)
      else false

/-- The bidirectional-link symmetry invariant of the specification, as a
boolean over the components currently in the scene: a qubit's
`connected_next`, if set, is a gate whose `connected_prev` points back;
a gate's `connected_prev`, if set, is a qubit whose `connected_next`
points back. -/
def Scene.linkSymmetricB (s : Scene) : Bool :=
  s.sceneComps.all (fun cid =>
    match s.find? cid with
    | none => true
    | some c =>
      (if c.component_type == TYPE_QUBIT then
        match c.connected_next with
        | none => true
        | some n =>
          match s.find? n with
          | none => false
          | some d => d.component_type == TYPE_GATE && d.connected_prev == some cid
      else true) &&
      (if c.component_type == TYPE_GATE then
        match c.connected_prev with
        | none => true
        | some p =>
          match s.find? p with
          | none => false
          | some d => d.component_type == TYPE_QUBIT && d.connected_next == some cid
      else true))

/-- The gate-side half of the symmetry invariant: every gate currently
in the scene with a set `connected_prev` points at a qubit whose
`connected_next` points back at that gate. -/
def Scene.gateSideB (s : Scene) : Bool :=
  s.sceneComps.all (fun cid =>
    match s.find? cid with
    | none => true
    | some c =>
      if c.component_type == TYPE_GATE then
        match c.connected_prev with
        | none => true
        | some p =>
          match s.find? p with
          | none => false
          | some d => d.component_type == TYPE_QUBIT && d.connected_next == some cid
      else true)

/-- Number of connection lines currently in the scene tagged with the
(qubit, gate) identity pair. -/
def Scene.linesFor (s : Scene) (q g : Nat) : Nat :=
  (s.sceneLines.filter (fun l => l.qubit == q && l.gate == g)).length

/-! ## Basic facts about the two snap policies -/

/-- The floor snap on the x axis lands on `g * ⌊x / g⌋`. -/
theorem snap_floor_x (p : PointF) (g : ℚ) :
    (snap_floor p g).x = g * ⌊p.x / g⌋ := by
  simp only [snap_floor, pymod]
  ring

/-- The floor snap on the y axis lands on `g * ⌊y / g⌋`. -/
theorem snap_floor_y (p : PointF) (g : ℚ) :
    (snap_floor p g).y = g * ⌊p.y / g⌋ := by
  simp only [snap_floor, pymod]
  ring

/-- A floor multiple is a lower bound: `g * ⌊x / g⌋ ≤ x` for `0 < g`. -/
theorem floor_mul_le (x g : ℚ) (hg : 0 < g) : g * ⌊x / g⌋ ≤ x := by
  have h1 : ((⌊x / g⌋ : ℚ)) ≤ x / g := Int.floor_le _
  have h2 : g * ((⌊x / g⌋ : ℚ)) ≤ g * (x / g) :=
    mul_le_mul_of_nonneg_left h1 (le_of_lt hg)
  calc g * ((⌊x / g⌋ : ℚ)) ≤ g * (x / g) := h2
    _ = x / g * g := mul_comm _ _
    _ = x := div_mul_cancel₀ x (ne_of_gt hg)

/-- A floor multiple is within one cell: `x - g < g * ⌊x / g⌋` for `0 < g`. -/
theorem lt_floor_mul (x g : ℚ) (hg : 0 < g) : x - g < g * ⌊x / g⌋ := by
  have h1 : x / g < (⌊x / g⌋ : ℚ) + 1 := Int.lt_floor_add_one _
  have h2 : g * (x / g) < g * ((⌊x / g⌋ : ℚ) + 1) :=
    mul_lt_mul_of_pos_left h1 hg
  have h3 : g * (x / g) = x := by
    rw [mul_comm]
    exact div_mul_cancel₀ x (ne_of_gt hg)
  have h4 : g * ((⌊x / g⌋ : ℚ) + 1) = g * ((⌊x / g⌋ : ℚ)) + g := by ring
  linarith

/-- Rounding an integer gives it back. -/
theorem pyround_intCast (k : ℤ) : pyround (k : ℚ) = k := by
  simp only [pyround, Int.floor_intCast, sub_self]
  norm_num

/-- The nearest snap is always an integer multiple of the cell size. -/
theorem snap_nearest_eq (x g : ℚ) : snap_nearest x g = (pyround (x / g) : ℚ) * g := rfl

/-- Re-snapping an exact multiple of the cell size changes nothing. -/
theorem snap_nearest_mul (m : ℤ) (g : ℚ) (hg : g ≠ 0) :
    snap_nearest ((m : ℚ) * g) g = (m : ℚ) * g := by
  simp only [snap_nearest]
  rw [mul_div_cancel_right₀ _ hg, pyround_intCast]

/-! ## Claims about the snap policies and payload parsing -/

/-- C8: for every raw position `p` and cell size `g > 0`, the drop-time
floor snap produces coordinates that are each at most the corresponding
coordinate of `p`, each within one cell (strictly greater than that
coordinate minus `g`), and each a multiple of `g`; and dropping a
component at raw position `(13, 5)` with grid size `24` places it at
`(0, 0)`. -/
theorem claim_C8 (p : PointF) (g : ℚ) (hg : 0 < g) :
    ((snap_floor p g).x ≤ p.x ∧ p.x - g < (snap_floor p g).x ∧
      (∃ k : ℤ, (snap_floor p g).x = g * k)) ∧
    ((snap_floor p g).y ≤ p.y ∧ p.y - g < (snap_floor p g).y ∧
      (∃ k : ℤ, (snap_floor p g).y = g * k)) ∧
    ((⟨[], [], []⟩ : Scene).dropEvent "0,qubit-0" ⟨13, 5⟩ 24 0 65 25).map
        (fun sc => sc.heap.map (fun c => c.pos)) = some [⟨0, 0⟩] := by
  refine ⟨⟨?_, ?_, ⟨⌊p.x / g⌋, snap_floor_x p g⟩⟩,
          ⟨?_, ?_, ⟨⌊p.y / g⌋, snap_floor_y p g⟩⟩, by decide⟩
  · rw [snap_floor_x]; exact floor_mul_le p.x g hg
  · rw [snap_floor_x]; exact lt_floor_mul p.x g hg
  · rw [snap_floor_y]; exact floor_mul_le p.y g hg
  · rw [snap_floor_y]; exact lt_floor_mul p.y g hg

/-- Witness for C8 at the concrete position `(13, 5)` with cell size `24`. -/
theorem claim_C8_witness :
    (0:ℚ) < 24 ∧
    (((snap_floor ⟨13, 5⟩ 24).x ≤ 13 ∧ (13:ℚ) - 24 < (snap_floor ⟨13, 5⟩ 24).x ∧
        (∃ k : ℤ, (snap_floor ⟨13, 5⟩ 24).x = 24 * k)) ∧
      ((snap_floor ⟨13, 5⟩ 24).y ≤ 5 ∧ (5:ℚ) - 24 < (snap_floor ⟨13, 5⟩ 24).y ∧
        (∃ k : ℤ, (snap_floor ⟨13, 5⟩ 24).y = 24 * k)) ∧
      ((⟨[], [], []⟩ : Scene).dropEvent "0,qubit-0" ⟨13, 5⟩ 24 0 65 25).map
          (fun sc => sc.heap.map (fun c => c.pos)) = some [⟨0, 0⟩]) :=
  ⟨by norm_num, claim_C8 ⟨13, 5⟩ 24 (by norm_num)⟩

/-- C9: the drag-release nearest snap is idempotent for every position
`p` and cell size `g > 0`. -/
theorem claim_C9 (p : PointF) (g : ℚ) (hg : 0 < g) :
    snapPointF (snapPointF p g) g = snapPointF p g := by
  have hne : g ≠ 0 := ne_of_gt hg
  simp only [snapPointF]
  rw [show snap_nearest p.x g = (pyround (p.x / g) : ℚ) * g from rfl,
      show snap_nearest p.y g = (pyround (p.y / g) : ℚ) * g from rfl,
      snap_nearest_mul _ _ hne, snap_nearest_mul _ _ hne]

/-- Witness for C9 at the concrete position `(13, 5)` with cell size `24`. -/
theorem claim_C9_witness :
    (0:ℚ) < 24 ∧ snapPointF (snapPointF ⟨13, 5⟩ 24) 24 = snapPointF ⟨13, 5⟩ 24 :=
  ⟨by norm_num, claim_C9 ⟨13, 5⟩ 24 (by norm_num)⟩

/-- C10: a payload whose first comma-separated field is not a numeric
string parses to the qubit kind, and whenever such a payload creates a
component at all, the created component's kind is `TYPE_QUBIT`. -/
theorem claim_C10 :
    (∀ t : String, pyIsNumeric t = false → parse_component_type t = TYPE_QUBIT) ∧
    (∀ (s : Scene) (text : String) (pos : Point) (scale : ℤ) (fresh : Nat) (pw ph : ℤ)
        (s2 : Scene) (d0 d1 : String) (rest : List String),
      pySplit ',' text = d0 :: d1 :: rest →
      pyIsNumeric d0 = false →
      s.dropEvent text pos scale fresh pw ph = some s2 →
      s2.heap.getLast?.map (fun c => c.component_type) = some TYPE_QUBIT) := by
  constructor
  · intro t h
    simp [parse_component_type, h]
  · intro s text pos scale fresh pw ph s2 d0 d1 rest hsplit hnum hdrop
    rw [Scene.dropEvent, hsplit] at hdrop
    cases hdrop
    simp [List.getLast?_append, parse_component_type, hnum]

/-- Witness for C10 on the payload `"x,Pauli-X"`, whose kind field is
not numeric: the drop creates a component and its kind is the qubit
kind. -/
theorem claim_C10_witness :
    parse_component_type "x" = TYPE_QUBIT ∧
    (⟨[], [], []⟩ : Scene).dropEvent "x,Pauli-X" ⟨0, 0⟩ 24 0 53 49 =
      some ⟨[⟨0, TYPE_QUBIT, "Pauli-X", 24, 53, 49, ⟨0, 0⟩, none, none⟩], [0], []⟩ ∧
    (some (⟨[⟨0, TYPE_QUBIT, "Pauli-X", 24, 53, 49, ⟨0, 0⟩, none, none⟩], [0], []⟩ : Scene)).bind
        (fun sc => sc.heap.getLast?.map (fun c => c.component_type)) = some TYPE_QUBIT := by
  refine ⟨claim_C10.1 "x" (by decide), rfl, ?_⟩
  have h := claim_C10.2 ⟨[], [], []⟩ "x,Pauli-X" ⟨0, 0⟩ 24 0 53 49
    ⟨[⟨0, TYPE_QUBIT, "Pauli-X", 24, 53, 49, ⟨0, 0⟩, none, none⟩], [0], []⟩
    "x" "Pauli-X" [] (by decide) (by decide) rfl
  exact h

/-! ## Structural lemmas about the scene operations -/

/-- A successful dereference returns the component with the requested
identity. -/
theorem Scene.find?_cid (s : Scene) (x : Nat) (c : CircuitComponent)
    (h : s.find? x = some c) : c.cid = x := by
  have hp := List.find?_some h
  simpa using hp

/-- Removing an item never touches the heap. -/
theorem Scene.heap_removeItem (s : Scene) (o : Option Nat) :
    (s.removeItem o).heap = s.heap := by
  cases o <;> rfl

/-- Removing a component never touches the lines. -/
theorem Scene.sceneLines_removeItem (s : Scene) (o : Option Nat) :
    (s.removeItem o).sceneLines = s.sceneLines := by
  cases o <;> rfl

/-- Removing an item does not change heap dereference. -/
theorem Scene.find?_removeItem (s : Scene) (o : Option Nat) (x : Nat) :
    (s.removeItem o).find? x = s.find? x := by
  cases o <;> rfl

/-- Line maintenance does not change heap dereference. -/
theorem Scene.find?_add_connection_line (s : Scene) (a b : CircuitComponent) (x : Nat) :
    (s.add_connection_line a b).find? x = s.find? x := rfl

/-- Line maintenance does not change scene membership of components. -/
theorem Scene.sceneComps_add_connection_line (s : Scene) (a b : CircuitComponent) :
    (s.add_connection_line a b).sceneComps = s.sceneComps := rfl

/-- Attribute mutation does not change scene membership. -/
theorem Scene.sceneComps_updateComp (s : Scene) (c : CircuitComponent) :
    (s.updateComp c).sceneComps = s.sceneComps := rfl

/-- Attribute mutation does not change the lines. -/
theorem Scene.sceneLines_updateComp (s : Scene) (c : CircuitComponent) :
    (s.updateComp c).sceneLines = s.sceneLines := rfl

/-- Updating the entry with identity `c.cid` in a component list, then
searching for that identity, yields `c`, provided some entry with that
identity exists. -/
theorem find?_upd_self (h : List CircuitComponent) (c : CircuitComponent)
    (hs : (h.find? (fun d => d.cid == c.cid)).isSome) :
    (h.map (fun d => if d.cid = c.cid then c else d)).find? (fun d => d.cid == c.cid) =
      some c := by
  induction h with
  | nil => simp at hs
  | cons a t ih =>
    by_cases ha : a.cid = c.cid
    · simp only [List.map_cons, if_pos ha]
      exact List.find?_cons_of_pos _ (by simp)
    · rw [List.find?_cons_of_neg _ (by simpa using ha)] at hs
      simp only [List.map_cons, if_neg ha]
      rw [List.find?_cons_of_neg _ (by simpa using ha)]
      exact ih hs

/-- Updating the entry with identity `c.cid` does not change a search
for a different identity. -/
theorem find?_upd_ne (h : List CircuitComponent) (c : CircuitComponent) (x : Nat)
    (hx : x ≠ c.cid) :
    (h.map (fun d => if d.cid = c.cid then c else d)).find? (fun d => d.cid == x) =
      h.find? (fun d => d.cid == x) := by
  induction h with
  | nil => rfl
  | cons a t ih =>
    by_cases ha : a.cid = c.cid
    · simp only [List.map_cons, if_pos ha]
      rw [List.find?_cons_of_neg _ (by simpa using fun hh => hx hh.symm),
          List.find?_cons_of_neg _ (by simpa [ha] using fun hh => hx hh.symm)]
      exact ih
    · simp only [List.map_cons, if_neg ha]
      by_cases hax : a.cid = x
      · rw [List.find?_cons_of_pos _ (by simpa using hax),
            List.find?_cons_of_pos _ (by simpa using hax)]
      · rw [List.find?_cons_of_neg _ (by simpa using hax),
            List.find?_cons_of_neg _ (by simpa using hax)]
        exact ih

/-- After mutating the object `c`, dereferencing `c.cid` yields `c`,
provided an object with that identity exists at all. -/
theorem Scene.find?_updateComp_self (s : Scene) (c : CircuitComponent)
    (h : (s.find? c.cid).isSome) : (s.updateComp c).find? c.cid = some c :=
  find?_upd_self s.heap c h

/-- Mutating the object `c` does not change dereference of any other
identity. -/
theorem Scene.find?_updateComp_ne (s : Scene) (c : CircuitComponent) (x : Nat)
    (h : x ≠ c.cid) : (s.updateComp c).find? x = s.find? x :=
  find?_upd_ne s.heap c x h

/-- Variant of `Scene.find?_updateComp_self` keyed on an identity known
to equal `c.cid`. -/
theorem Scene.find?_updateComp_eq (s : Scene) (c : CircuitComponent) (x : Nat)
    (hx : c.cid = x) (h : (s.find? x).isSome) : (s.updateComp c).find? x = some c := by
  subst hx
  exact Scene.find?_updateComp_self s c h

/-! ## The effect of the connection branch -/

/-- The gate record as rewritten by the connection branch: realigned to
six grid cells right of the qubit, on the qubit's row, with
`connected_prev` pointing at the qubit. -/
def gateAfter (g q : CircuitComponent) : CircuitComponent :=
  { g with pos := ⟨q.pos.x + g.grid_size * 6, q.pos.y⟩, connected_prev := some q.cid }

/-- The qubit record as rewritten by the connection branch:
`connected_next` pointing at the moving gate. -/
def qubitAfter (g q : CircuitComponent) : CircuitComponent :=
  { q with connected_next := some g.cid }

/-- Unfolding of the connection branch into its primitive steps. -/
theorem connectTo_eq (s : Scene) (g q : CircuitComponent) :
    s.connectTo g q =
      ((((if q.connected_next ≠ some g.cid then s.removeItem q.connected_next
            else s).updateComp (gateAfter g q)).updateComp
          (qubitAfter g q)).add_connection_line (qubitAfter g q) (gateAfter g q),
       if q.connected_next ≠ some g.cid then [q.connected_next] else []) := rfl

/-- The conditional eviction step does not change heap dereference. -/
theorem find?_removeItem_if (s : Scene) (c : Prop) [Decidable c] (o : Option Nat) (x : Nat) :
    (if c then s.removeItem o else s).find? x = s.find? x := by
  split
  · exact Scene.find?_removeItem s o x
  · rfl

/-- The conditional eviction step does not change the lines. -/
theorem sceneLines_removeItem_if (s : Scene) (c : Prop) [Decidable c] (o : Option Nat) :
    (if c then s.removeItem o else s).sceneLines = s.sceneLines := by
  split
  · exact Scene.sceneLines_removeItem s o
  · rfl

/-- After the connection branch, the moving gate dereferences to its
rewritten record. -/
theorem connectTo_find_gate (s : Scene) (g q : CircuitComponent)
    (hne : q.cid ≠ g.cid) (hgs : (s.find? g.cid).isSome) :
    (s.connectTo g q).1.find? g.cid = some (gateAfter g q) := by
  rw [connectTo_eq]
  dsimp only
  rw [Scene.find?_add_connection_line,
      Scene.find?_updateComp_ne _ (qubitAfter g q) g.cid (fun h => hne (h.symm)),
      Scene.find?_updateComp_eq _ (gateAfter g q) g.cid rfl]
  rw [find?_removeItem_if]
  exact hgs

/-- After the connection branch, the hit qubit dereferences to its
rewritten record. -/
theorem connectTo_find_qubit (s : Scene) (g q : CircuitComponent)
    (hne : q.cid ≠ g.cid) (hqs : (s.find? q.cid).isSome) :
    (s.connectTo g q).1.find? q.cid = some (qubitAfter g q) := by
  rw [connectTo_eq]
  dsimp only
  rw [Scene.find?_add_connection_line, Scene.find?_updateComp_eq _ (qubitAfter g q) q.cid rfl]
  rw [Scene.find?_updateComp_ne _ (gateAfter g q) q.cid hne, find?_removeItem_if]
  exact hqs

/-- The connection branch leaves every other object untouched. -/
theorem connectTo_find_other (s : Scene) (g q : CircuitComponent) (x : Nat)
    (hxg : x ≠ g.cid) (hxq : x ≠ q.cid) :
    (s.connectTo g q).1.find? x = s.find? x := by
  rw [connectTo_eq]
  dsimp only
  rw [Scene.find?_add_connection_line,
      Scene.find?_updateComp_ne _ (qubitAfter g q) x hxq,
      Scene.find?_updateComp_ne _ (gateAfter g q) x hxg, find?_removeItem_if]

/-- When the hit qubit holds no gate, the branch issues a `removeItem`
call on `None` and component membership is unchanged. -/
theorem connectTo_comps_none (s : Scene) (g q : CircuitComponent)
    (h : q.connected_next = none) :
    (s.connectTo g q).1.sceneComps = s.sceneComps ∧ (s.connectTo g q).2 = [none] := by
  rw [connectTo_eq]
  have hc : q.connected_next ≠ some g.cid := by simp [h]
  constructor
  · show Scene.sceneComps _ = _
    rw [Scene.sceneComps_add_connection_line, Scene.sceneComps_updateComp,
        Scene.sceneComps_updateComp, if_pos hc, h]
    rfl
  · simp [if_pos hc, h]

/-- When the hit qubit holds a different gate, that gate's identity is
filtered out of the scene and the `removeItem` call names it. -/
theorem connectTo_comps_evict (s : Scene) (g q : CircuitComponent) (o : Nat)
    (h : q.connected_next = some o) (ho : o ≠ g.cid) :
    (s.connectTo g q).1.sceneComps = s.sceneComps.filter (fun x => x != o) ∧
      (s.connectTo g q).2 = [some o] := by
  rw [connectTo_eq]
  have hc : q.connected_next ≠ some g.cid := by simp [h, ho]
  constructor
  · show Scene.sceneComps _ = _
    rw [Scene.sceneComps_add_connection_line, Scene.sceneComps_updateComp,
        Scene.sceneComps_updateComp, if_pos hc, h]
    rfl
  · simp [if_pos hc, h, ho]

/-- When the hit qubit already holds the moving gate, no removal call is
made and component membership is unchanged. -/
theorem connectTo_comps_same (s : Scene) (g q : CircuitComponent)
    (h : q.connected_next = some g.cid) :
    (s.connectTo g q).1.sceneComps = s.sceneComps ∧ (s.connectTo g q).2 = [] := by
  rw [connectTo_eq]
  have hc : ¬ (q.connected_next ≠ some g.cid) := by simp [h]
  constructor
  · show Scene.sceneComps _ = _
    rw [Scene.sceneComps_add_connection_line, Scene.sceneComps_updateComp,
        Scene.sceneComps_updateComp, if_neg hc]
  · simp [if_neg hc]

/-- Every component id in the scene after the connection branch was in
the scene before. -/
theorem connectTo_comps_subset (s : Scene) (g q : CircuitComponent) (x : Nat)
    (hx : x ∈ (s.connectTo g q).1.sceneComps) : x ∈ s.sceneComps := by
  rcases hnext : q.connected_next with _ | o
  · exact ((connectTo_comps_none s g q hnext).1 ▸ hx)
  · by_cases ho : o = g.cid
    · subst ho
      exact ((connectTo_comps_same s g q hnext).1 ▸ hx)
    · have h2 := (connectTo_comps_evict s g q o hnext ho).1 ▸ hx
      exact List.mem_of_mem_filter h2

/-- The lines after the connection branch: the lines not tagged with
this exact (qubit, gate) pair, followed by the freshly drawn line. -/
theorem connectTo_sceneLines (s : Scene) (g q : CircuitComponent) :
    (s.connectTo g q).1.sceneLines =
      s.sceneLines.filter (fun l => !(l.qubit == q.cid && l.gate == g.cid)) ++
        [⟨(q.pos.x : ℚ) + (q.pixmap_w : ℚ), (q.pos.y : ℚ) + (q.pixmap_h : ℚ) / 2,
          ((q.pos.x + g.grid_size * 6 : ℤ) : ℚ),
          ((q.pos.y : ℤ) : ℚ) + (g.pixmap_h : ℚ) / 2, q.cid, g.cid⟩] := by
  rw [connectTo_eq]
  show Scene.sceneLines (Scene.add_connection_line _ _ _) = _
  simp only [Scene.add_connection_line, Scene.sceneLines_updateComp, sceneLines_removeItem_if]
  rfl

/-! ## Characterising the scan of `check_connections` -/

/-- Destructor for a positive candidate test. -/
theorem candB_true (s : Scene) (g : CircuitComponent) (cid : Nat)
    (h : s.candB g cid = true) :
    cid ≠ g.cid ∧ ∃ item, s.find? cid = some item ∧ g.component_type = TYPE_GATE ∧
      item.component_type = TYPE_QUBIT ∧
      manhattanLength g.pos item.pos ≤ g.grid_size * 8 := by
  unfold Scene.candB at h
  by_cases h1 : cid = g.cid
  · rw [if_pos h1] at h
    simp at h
  · rw [if_neg h1] at h
    rcases hf : s.find? cid with _ | item
    · rw [hf] at h
      simp at h
    · rw [hf] at h
      dsimp only at h
      by_cases h2 : g.component_type = TYPE_GATE ∧ item.component_type = TYPE_QUBIT
      · rw [if_pos h2] at h
        exact ⟨h1, item, rfl, h2.1, h2.2, of_decide_eq_true h⟩
      · rw [if_neg h2] at h
        simp at h

/-- For a distinct scene qubit and a moving gate, candidacy is exactly
the Manhattan-distance test against eight grid cells. -/
theorem candB_iff (s : Scene) (g : CircuitComponent) (cid : Nat) (item : CircuitComponent)
    (hf : s.find? cid = some item) (hne : cid ≠ g.cid)
    (hg : g.component_type = TYPE_GATE) (hi : item.component_type = TYPE_QUBIT) :
    (s.candB g cid = true ↔ manhattanLength g.pos item.pos ≤ g.grid_size * 8) := by
  unfold Scene.candB
  rw [if_neg hne, hf]
  dsimp only
  rw [if_pos ⟨hg, hi⟩]
  exact decide_eq_true_iff

/-- The scan loop connects to the first candidate in iteration order and
otherwise leaves the scene unchanged. -/
theorem check_loop_eq (s : Scene) (g : CircuitComponent) (l : List Nat) :
    s.check_loop g l =
      match l.find? (s.candB g) with
      | none => (s, [])
      | some cid =>
        match s.find? cid with
        | none => (s, [])
        | some item => s.connectTo g item := by
  induction l with
  | nil => rfl
  | cons cid rest ih =>
    by_cases h1 : cid = g.cid
    · have hc : s.candB g cid = false := by simp [Scene.candB, h1]
      rw [List.find?_cons_of_neg _ (by simp [hc])]
      rw [show s.check_loop g (cid :: rest) = s.check_loop g rest from by
        simp [Scene.check_loop, h1]]
      exact ih
    · rcases hf : s.find? cid with _ | item
      · have hc : s.candB g cid = false := by simp [Scene.candB, h1, hf]
        rw [List.find?_cons_of_neg _ (by simp [hc])]
        rw [show s.check_loop g (cid :: rest) = s.check_loop g rest from by
          simp [Scene.check_loop, h1, hf]]
        exact ih
      · by_cases h2 : g.component_type = TYPE_GATE ∧ item.component_type = TYPE_QUBIT
        · by_cases h3 : manhattanLength g.pos item.pos ≤ g.grid_size * 8
          · have hc : s.candB g cid = true := by
              rw [Scene.candB, if_neg h1, hf]
              dsimp only
              rw [if_pos h2]
              exact decide_eq_true h3
            rw [List.find?_cons_of_pos _ hc]
            rw [show s.check_loop g (cid :: rest) = s.connectTo g item from by
              simp [Scene.check_loop, h1, hf, h2, h3]]
            simp [hf]
          · have hc : s.candB g cid = false := by
              rw [Scene.candB, if_neg h1, hf]
              dsimp only
              rw [if_pos h2]
              exact decide_eq_false h3
            rw [List.find?_cons_of_neg _ (by simp [hc])]
            rw [show s.check_loop g (cid :: rest) = s.check_loop g rest from by
              simp [Scene.check_loop, h1, hf, h2, h3]]
            exact ih
        · have hc : s.candB g cid = false := by
            rw [Scene.candB, if_neg h1, hf]
            dsimp only
            rw [if_neg h2]
          rw [List.find?_cons_of_neg _ (by simp [hc])]
          rw [show s.check_loop g (cid :: rest) = s.check_loop g rest from by
            simp [Scene.check_loop, h1, hf, h2]]
          exact ih

/-- Connection resolution on a qubit does nothing. -/
theorem check_connections_qubit (s : Scene) (cid : Nat) (c : CircuitComponent)
    (hc : s.find? cid = some c) (ht : c.component_type = TYPE_QUBIT) :
    s.check_connections cid = (s, []) := by
  unfold Scene.check_connections
  rw [hc]
  dsimp only
  rw [if_pos ht]

/-- Connection resolution on a missing identity does nothing. -/
theorem check_connections_missing (s : Scene) (cid : Nat)
    (hc : s.find? cid = none) : s.check_connections cid = (s, []) := by
  unfold Scene.check_connections
  rw [hc]

/-- Connection resolution on a non-qubit runs the scan loop. -/
theorem check_connections_eq_loop (s : Scene) (cid : Nat) (g : CircuitComponent)
    (hc : s.find? cid = some g) (ht : g.component_type ≠ TYPE_QUBIT) :
    s.check_connections cid = s.check_loop g s.sceneComps := by
  unfold Scene.check_connections
  rw [hc]
  dsimp only
  rw [if_neg ht]

/-- Connection resolution on a gate whose scan finds a candidate first
hit `qcid` executes exactly the connection branch against that qubit. -/
theorem check_connections_bind (s : Scene) (cid : Nat) (g : CircuitComponent)
    (qcid : Nat) (q : CircuitComponent)
    (hg : s.find? cid = some g) (ht : g.component_type = TYPE_GATE)
    (hfind : s.sceneComps.find? (s.candB g) = some qcid)
    (hq : s.find? qcid = some q) :
    s.check_connections cid = s.connectTo g q := by
  rw [check_connections_eq_loop s cid g hg (by rw [ht]; decide), check_loop_eq]
  simp [hfind, hq]

/-- Connection resolution on a gate whose scan finds no candidate does
nothing. -/
theorem check_connections_no_cand (s : Scene) (cid : Nat) (g : CircuitComponent)
    (hg : s.find? cid = some g) (ht : g.component_type = TYPE_GATE)
    (hfind : s.sceneComps.find? (s.candB g) = none) :
    s.check_connections cid = (s, []) := by
  rw [check_connections_eq_loop s cid g hg (by rw [ht]; decide), check_loop_eq]
  simp [hfind]

/-- When every scene qubit is strictly farther than eight grid cells
from the gate, the scan has no candidate. -/
theorem find?_candB_none (s : Scene) (g : CircuitComponent)
    (hfar : ∀ x ∈ s.sceneComps, ∀ item, s.find? x = some item →
      item.component_type = TYPE_QUBIT → g.grid_size * 8 < manhattanLength g.pos item.pos) :
    s.sceneComps.find? (s.candB g) = none := by
  rw [List.find?_eq_none]
  intro x hx hc
  obtain ⟨h1, item, hf, hgate, hqu, hdist⟩ := candB_true s g x hc
  exact absurd hdist (not_le.mpr (hfar x hx item hf hqu))

/-! ## Concrete scenes used to instantiate the theorems -/

/-- A qubit at the origin holding the gate with identity 1. -/
def qubitQA : CircuitComponent := ⟨0, TYPE_QUBIT, "qubit-0", 24, 48, 24, ⟨0, 0⟩, none, some 1⟩

/-- The gate attached to `qubitQA`, sitting six cells to its right. -/
def gateG1 : CircuitComponent := ⟨1, TYPE_GATE, "Pauli-X", 24, 48, 48, ⟨144, 0⟩, some 0, none⟩

/-- A second gate that has just settled one cell from `qubitQA`. -/
def gateG2 : CircuitComponent := ⟨2, TYPE_GATE, "Pauli-Y", 24, 48, 48, ⟨24, 0⟩, none, none⟩

/-- The connection line drawn for `qubitQA` and `gateG1`. -/
def lineQG1 : ConnLine := ⟨48, 12, 144, 24, 0, 1⟩

/-- A scene in which qubit 0 holds gate 1 while gate 2 has just settled
within threshold of qubit 0. -/
def sAttached : Scene := ⟨[qubitQA, gateG1, gateG2], [2, 1, 0], [lineQG1]⟩

/-- A qubit at the origin with no attached gate. -/
def qubitQ0 : CircuitComponent := ⟨0, TYPE_QUBIT, "qubit-0", 24, 48, 24, ⟨0, 0⟩, none, none⟩

/-- An unattached gate one cell from `qubitQ0`. -/
def gateGnew : CircuitComponent := ⟨1, TYPE_GATE, "Pauli-X", 24, 48, 48, ⟨24, 0⟩, none, none⟩

/-- A scene with a free qubit and a gate that settled within threshold. -/
def sFresh : Scene := ⟨[qubitQ0, gateGnew], [1, 0], []⟩

/-- An unattached gate ten cells from `qubitQ0`, beyond threshold. -/
def gateGfar : CircuitComponent := ⟨1, TYPE_GATE, "Pauli-X", 24, 48, 48, ⟨240, 0⟩, none, none⟩

/-- A scene whose only gate is out of range of every qubit. -/
def sFar : Scene := ⟨[qubitQ0, gateGfar], [1, 0], []⟩

/-! ## Claims about connection resolution -/

/-- C5: for a moved gate, a scene qubit distinct from it is a connection
candidate exactly when the Manhattan distance between their positions is
within eight grid cells; the gate binds to the first candidate in
iteration order (its `connected_prev` becomes that qubit), and the scan
stops there — the heap entry of every component other than the moving
gate and the hit qubit is untouched. -/
theorem claim_C5 (s : Scene) (cid : Nat) (g : CircuitComponent)
    (hg : s.find? cid = some g) (ht : g.component_type = TYPE_GATE) :
    (∀ icid item, s.find? icid = some item → icid ≠ cid →
      item.component_type = TYPE_QUBIT →
      (s.candB g icid = true ↔ manhattanLength g.pos item.pos ≤ g.grid_size * 8)) ∧
    (∀ qcid q, s.sceneComps.find? (s.candB g) = some qcid → s.find? qcid = some q →
      ((s.check_connections cid).1.find? cid).map (fun c => c.connected_prev) =
        some (some qcid) ∧
      (∀ ocid, ocid ≠ cid → ocid ≠ qcid →
        (s.check_connections cid).1.find? ocid = s.find? ocid)) := by
  have hgcid : g.cid = cid := Scene.find?_cid s cid g hg
  constructor
  · intro icid item hf hne hi
    exact candB_iff s g icid item hf (by rw [hgcid]; exact hne) ht hi
  · intro qcid q hfind hq
    have hqcid : q.cid = qcid := Scene.find?_cid s qcid q hq
    obtain ⟨hneq, -⟩ := candB_true s g qcid (List.find?_some hfind)
    have hne : q.cid ≠ g.cid := by rw [hqcid]; exact hneq
    rw [check_connections_bind s cid g qcid q hg ht hfind hq]
    constructor
    · have hfg : (s.connectTo g q).1.find? g.cid = some (gateAfter g q) :=
        connectTo_find_gate s g q hne (by rw [hgcid, hg]; rfl)
      rw [hgcid] at hfg
      rw [hfg]
      simp [gateAfter, hqcid]
    · intro ocid ho1 ho2
      exact connectTo_find_other s g q ocid (by rw [hgcid]; exact ho1)
        (by rw [hqcid]; exact ho2)

/-- Witness for C5 on the concrete scene `sAttached`: qubit 0 is a
candidate for gate 2 precisely by the distance test, gate 2 binds to
qubit 0, and the untouched gate 1 keeps its heap entry. -/
theorem claim_C5_witness :
    (sAttached.candB gateG2 0 = true ↔
      manhattanLength gateG2.pos qubitQA.pos ≤ gateG2.grid_size * 8) ∧
    ((sAttached.check_connections 2).1.find? 2).map (fun c => c.connected_prev) =
      some (some 0) ∧
    (sAttached.check_connections 2).1.find? 1 = sAttached.find? 1 := by
  have h := claim_C5 sAttached 2 gateG2 rfl rfl
  exact ⟨h.1 0 qubitQA rfl (by decide) rfl, (h.2 0 qubitQA rfl rfl).1,
    (h.2 0 qubitQA rfl rfl).2 1 (by decide) (by decide)⟩

/-- C6: whenever connection resolution binds a moved gate to a qubit,
the gate's final position is the qubit's position offset by six grid
cells horizontally, with the qubit's vertical coordinate. -/
theorem claim_C6 (s : Scene) (cid : Nat) (g : CircuitComponent)
    (qcid : Nat) (q : CircuitComponent)
    (hg : s.find? cid = some g) (ht : g.component_type = TYPE_GATE)
    (hfind : s.sceneComps.find? (s.candB g) = some qcid)
    (hq : s.find? qcid = some q) :
    ((s.check_connections cid).1.find? cid).map (fun c => c.pos) =
      some ⟨q.pos.x + g.grid_size * 6, q.pos.y⟩ := by
  have hgcid : g.cid = cid := Scene.find?_cid s cid g hg
  have hqcid : q.cid = qcid := Scene.find?_cid s qcid q hq
  obtain ⟨hneq, -⟩ := candB_true s g qcid (List.find?_some hfind)
  rw [check_connections_bind s cid g qcid q hg ht hfind hq]
  have hfg : (s.connectTo g q).1.find? g.cid = some (gateAfter g q) :=
    connectTo_find_gate s g q (by rw [hqcid]; exact hneq) (by rw [hgcid, hg]; rfl)
  rw [hgcid] at hfg
  rw [hfg]
  rfl

/-- Witness for C6: in `sAttached`, gate 2 binds to the qubit at
`(0, 0)` with grid size 24 and ends at `(144, 0)`. -/
theorem claim_C6_witness :
    ((sAttached.check_connections 2).1.find? 2).map (fun c => c.pos) =
      some ⟨144, 0⟩ :=
  claim_C6 sAttached 2 gateG2 0 qubitQA rfl rfl rfl rfl

/-- C7: connection resolution is a complete no-op — same scene, no line
created or removed, no link changed, no removal call — when the settled
component is a qubit, and likewise when it is a gate strictly farther
than eight grid cells from every qubit in the scene. -/
theorem claim_C7 :
    (∀ (s : Scene) (cid : Nat) (c : CircuitComponent),
      s.find? cid = some c → c.component_type = TYPE_QUBIT →
      s.check_connections cid = (s, [])) ∧
    (∀ (s : Scene) (cid : Nat) (g : CircuitComponent),
      s.find? cid = some g → g.component_type = TYPE_GATE →
      (∀ x ∈ s.sceneComps, ∀ item, s.find? x = some item →
        item.component_type = TYPE_QUBIT →
        g.grid_size * 8 < manhattanLength g.pos item.pos) →
      s.check_connections cid = (s, [])) :=
  ⟨fun s cid c hc ht => check_connections_qubit s cid c hc ht,
   fun s cid g hg ht hfar =>
     check_connections_no_cand s cid g hg ht (find?_candB_none s g hfar)⟩

/-- Witness for C7: resolving the qubit of `sAttached` changes nothing,
and resolving the far gate of `sFar` (ten cells from the only qubit)
changes nothing. -/
theorem claim_C7_witness :
    sAttached.check_connections 0 = (sAttached, []) ∧
    sFar.check_connections 1 = (sFar, []) :=
  ⟨claim_C7.1 sAttached 0 qubitQA rfl rfl,
   claim_C7.2 sFar 1 gateGfar rfl rfl (by decide)⟩

/-- C3: when connection resolution binds a gate to a qubit whose
`connected_next` is `None`, the eviction guard still fires and the
scene's item-removal operation is invoked with `None` as its argument
(a removal call on a missing item); component membership is unchanged
by that call. -/
theorem claim_C3 (s : Scene) (cid : Nat) (g : CircuitComponent)
    (qcid : Nat) (q : CircuitComponent)
    (hg : s.find? cid = some g) (ht : g.component_type = TYPE_GATE)
    (hfind : s.sceneComps.find? (s.candB g) = some qcid)
    (hq : s.find? qcid = some q) (hnone : q.connected_next = none) :
    (s.check_connections cid).2 = [none] ∧
    (s.check_connections cid).1.sceneComps = s.sceneComps := by
  rw [check_connections_bind s cid g qcid q hg ht hfind hq]
  obtain ⟨h1, h2⟩ := connectTo_comps_none s g q hnone
  exact ⟨h2, h1⟩

/-- Witness for C3: in `sFresh` the qubit is unconnected, and binding
the gate to it issues exactly one removal call, with `None`. -/
theorem claim_C3_witness :
    (sFresh.check_connections 1).2 = [none] ∧
    (sFresh.check_connections 1).1.sceneComps = sFresh.sceneComps :=
  claim_C3 sFresh 1 gateGnew 0 qubitQ0 rfl rfl rfl rfl rfl

/-! ## Eviction: what actually happens to the old gate -/

/-- C1 as stated is false: in `sAttached`, resolving gate 2 (which
settled within threshold of qubit 0, the holder of gate 1) neither
removes gate 1's connection line from the canvas nor clears
`gateG1.connected_prev` — the line tagged (0, 1) survives and gate 1
still points back at qubit 0. -/
theorem claim_C1_counterexample :
    ¬ (((sAttached.check_connections 2).1.sceneLines.all
          (fun l => !(l.qubit == 0 && l.gate == 1))) = true ∧
       ((sAttached.check_connections 2).1.find? 1).map
          (fun c => c.connected_prev) = some none) := by
  decide

/-- C1 amended: resolving gate `g` against a qubit `q` that already
holds a different gate removes that old gate component itself from the
canvas (its identity leaves the scene, and the `removeItem` call names
it), and re-points the qubit's `connected_next` at `g`; the old gate's
heap record — `connected_prev` included — is unchanged, and every line
tagged with the (qubit, old gate) pair stays on the canvas. -/
theorem claim_C1_amended (s : Scene) (cid qcid oldcid : Nat)
    (g q old : CircuitComponent)
    (hg : s.find? cid = some g) (ht : g.component_type = TYPE_GATE)
    (hfind : s.sceneComps.find? (s.candB g) = some qcid)
    (hq : s.find? qcid = some q)
    (hnext : q.connected_next = some oldcid)
    (hne1 : oldcid ≠ cid) (hne2 : oldcid ≠ qcid)
    (hold : s.find? oldcid = some old) :
    oldcid ∉ (s.check_connections cid).1.sceneComps ∧
    (s.check_connections cid).1.find? oldcid = some old ∧
    ((s.check_connections cid).1.find? qcid).map (fun c => c.connected_next) =
      some (some cid) ∧
    (∀ l ∈ s.sceneLines, l.qubit = qcid → l.gate = oldcid →
      l ∈ (s.check_connections cid).1.sceneLines) ∧
    (s.check_connections cid).2 = [some oldcid] := by
  have hgcid : g.cid = cid := Scene.find?_cid s cid g hg
  have hqcid : q.cid = qcid := Scene.find?_cid s qcid q hq
  obtain ⟨hneq, -⟩ := candB_true s g qcid (List.find?_some hfind)
  have hno : oldcid ≠ g.cid := by rw [hgcid]; exact hne1
  have hqg : q.cid ≠ g.cid := by rw [hqcid]; exact hneq
  obtain ⟨hcomps, hlog⟩ := connectTo_comps_evict s g q oldcid hnext hno
  rw [check_connections_bind s cid g qcid q hg ht hfind hq]
  refine ⟨?_, ?_, ?_, ?_, hlog⟩
  · rw [hcomps]
    intro hmem
    have := List.of_mem_filter hmem
    simp at this
  · rw [connectTo_find_other s g q oldcid hno (by rw [hqcid]; exact hne2)]
    exact hold
  · have hfq : (s.connectTo g q).1.find? q.cid = some (qubitAfter g q) :=
      connectTo_find_qubit s g q hqg (by rw [hqcid, hq]; rfl)
    rw [hqcid] at hfq
    rw [hfq]
    simp [qubitAfter, hgcid]
  · intro l hl hlq hlg
    rw [connectTo_sceneLines]
    apply List.mem_append_left
    apply List.mem_filter.mpr
    refine ⟨hl, ?_⟩
    have : (l.gate == g.cid) = false := by
      simp [hlg]
      rw [hgcid]
      exact hne1
    simp [this]

/-- Witness for the amended C1 on the concrete scene `sAttached`:
gate 1 leaves the scene, its record (still pointing at qubit 0) is
unchanged, qubit 0 now holds gate 2, the (0, 1) line survives, and the
removal call named gate 1. -/
theorem claim_C1_amended_witness :
    1 ∉ (sAttached.check_connections 2).1.sceneComps ∧
    (sAttached.check_connections 2).1.find? 1 = some gateG1 ∧
    ((sAttached.check_connections 2).1.find? 0).map (fun c => c.connected_next) =
      some (some 2) ∧
    lineQG1 ∈ (sAttached.check_connections 2).1.sceneLines ∧
    (sAttached.check_connections 2).2 = [some 1] := by
  have h := claim_C1_amended sAttached 2 0 1 gateG2 qubitQA gateG1
    rfl rfl rfl rfl rfl (by decide) (by decide) rfl
  exact ⟨h.1, h.2.1, h.2.2.1,
    h.2.2.2.1 lineQG1 (List.mem_singleton.mpr rfl) rfl rfl, h.2.2.2.2⟩

/-! ## Line maintenance -/

/-- C4 as stated is false: after gate 2 evicts gate 1 from qubit 0 in
`sAttached`, the binding has been replaced (qubit 0 now holds gate 2),
yet a line tagged with the since-replaced binding (0, 1) is still on
the canvas. -/
theorem claim_C4_counterexample :
    ((sAttached.check_connections 2).1.find? 0).map (fun c => c.connected_next) =
      some (some 2) ∧
    ((sAttached.check_connections 2).1.sceneLines.any
      (fun l => l.qubit == 0 && l.gate == 1)) = true := by
  decide

/-- The lines after `add_connection_line`, unfolded. -/
theorem add_connection_line_sceneLines (s : Scene) (q g : CircuitComponent) :
    (s.add_connection_line q g).sceneLines =
      s.sceneLines.filter (fun l => !(l.qubit == q.cid && l.gate == g.cid)) ++
        [⟨(q.pos.x : ℚ) + (q.pixmap_w : ℚ), (q.pos.y : ℚ) + (q.pixmap_h : ℚ) / 2,
          (g.pos.x : ℚ), (g.pos.y : ℚ) + (g.pixmap_h : ℚ) / 2, q.cid, g.cid⟩] := rfl

/-- Purging a tag and appending one line with that tag leaves exactly
one line with the tag. -/
theorem count_tag (lines : List ConnLine) (qc gc : Nat) (x1 y1 x2 y2 : ℚ) :
    ((lines.filter (fun (l : ConnLine) => !(l.qubit == qc && l.gate == gc)) ++
        ([⟨x1, y1, x2, y2, qc, gc⟩] : List ConnLine)).filter
      (fun (l : ConnLine) => l.qubit == qc && l.gate == gc)).length = 1 := by
  simp [List.filter_append, List.filter_filter, Bool.and_not_self]

/-- Purging one tag and appending a line with that tag does not change
the lines carrying any other tag. -/
theorem count_tag_other (lines : List ConnLine) (qc gc a b : Nat)
    (h : ¬(a = qc ∧ b = gc)) (x1 y1 x2 y2 : ℚ) :
    ((lines.filter (fun (l : ConnLine) => !(l.qubit == qc && l.gate == gc)) ++
        ([⟨x1, y1, x2, y2, qc, gc⟩] : List ConnLine)).filter
      (fun (l : ConnLine) => l.qubit == a && l.gate == b)) =
      lines.filter (fun (l : ConnLine) => l.qubit == a && l.gate == b) := by
  have hnew : ((⟨x1, y1, x2, y2, qc, gc⟩ : ConnLine).qubit == a &&
      (⟨x1, y1, x2, y2, qc, gc⟩ : ConnLine).gate == b) = false := by
    have h2 : ¬(qc = a ∧ gc = b) := fun hh => h ⟨hh.1.symm, hh.2.symm⟩
    simpa using h2
  rw [List.filter_append, List.filter_filter]
  rw [show ([(⟨x1, y1, x2, y2, qc, gc⟩ : ConnLine)].filter
      (fun l => l.qubit == a && l.gate == b)) = [] from by simp [hnew]]
  rw [List.append_nil]
  apply List.filter_congr
  intro x hx
  by_cases hp : (x.qubit == a && x.gate == b) = true
  · obtain ⟨hxa, hxb⟩ : x.qubit = a ∧ x.gate = b := by simpa using hp
    have hfalse : (x.qubit == qc && x.gate == gc) = false := by
      by_cases h1 : a = qc
      · by_cases h2 : b = gc
        · exact absurd ⟨h1, h2⟩ h
        · simp [hxa, hxb, h2]
      · simp [hxa, hxb, h1]
    rw [hp, hfalse]
    rfl
  · have hp2 : (x.qubit == a && x.gate == b) = false := by
      cases hval : (x.qubit == a && x.gate == b)
      · rfl
      · exact absurd hval hp
    rw [hp2]
    rfl

/-- C4 amended: the canvas never holds two overlapping lines for the
same (qubit, gate) pair — drawing a pair's line first removes every
line already tagged with that exact pair, so after `add_connection_line`
(and after the connection branch) exactly one line carries that tag,
and the lines of every other pair are untouched.  A line whose tag
refers to a since-replaced (evicted) binding, however, is not removed
(see the counterexample) — only redraws of the same pair are purged. -/
theorem claim_C4_amended :
    (∀ (s : Scene) (q g : CircuitComponent),
      (s.add_connection_line q g).linesFor q.cid g.cid = 1) ∧
    (∀ (s : Scene) (q g : CircuitComponent) (a b : Nat), ¬(a = q.cid ∧ b = g.cid) →
      (s.add_connection_line q g).linesFor a b = s.linesFor a b) ∧
    (∀ (s : Scene) (g q : CircuitComponent),
      (s.connectTo g q).1.linesFor q.cid g.cid = 1) := by
  refine ⟨?_, ?_, ?_⟩
  · intro s q g
    simp only [Scene.linesFor, add_connection_line_sceneLines]
    exact count_tag s.sceneLines q.cid g.cid _ _ _ _
  · intro s q g a b h
    simp only [Scene.linesFor, add_connection_line_sceneLines]
    rw [count_tag_other s.sceneLines q.cid g.cid a b h]
  · intro s g q
    simp only [Scene.linesFor, connectTo_sceneLines]
    exact count_tag s.sceneLines q.cid g.cid _ _ _ _

/-- Witness for the amended C4 on `sAttached`: redrawing the (0, 2)
line leaves exactly one such line, does not disturb the (0, 1) line
count, and the connection branch for gate 2 against qubit 0 also leaves
exactly one (0, 2) line. -/
theorem claim_C4_amended_witness :
    (sAttached.add_connection_line qubitQA gateG2).linesFor 0 2 = 1 ∧
    (sAttached.add_connection_line qubitQA gateG2).linesFor 0 1 =
      sAttached.linesFor 0 1 ∧
    (sAttached.connectTo gateG2 qubitQA).1.linesFor 0 2 = 1 :=
  ⟨claim_C4_amended.1 sAttached qubitQA gateG2,
   claim_C4_amended.2.1 sAttached qubitQA gateG2 0 1 (by decide),
   claim_C4_amended.2.2 sAttached gateG2 qubitQA⟩

/-! ## The symmetry invariant -/

/-- A qubit at the origin that holds the gate with identity 2. -/
def qubitP1 : CircuitComponent := ⟨0, TYPE_QUBIT, "qubit-0", 24, 48, 24, ⟨0, 0⟩, none, some 2⟩

/-- A free qubit forty cells to the right. -/
def qubitP2 : CircuitComponent := ⟨1, TYPE_QUBIT, "qubit-1", 24, 48, 24, ⟨960, 0⟩, none, none⟩

/-- The gate bound to `qubitP1` that has since been dragged next to
`qubitP2` (one cell away, and forty cells away from `qubitP1`). -/
def gateGm : CircuitComponent := ⟨2, TYPE_GATE, "Pauli-Z", 24, 48, 48, ⟨936, 0⟩, some 0, none⟩

/-- A link-symmetric scene about to re-bind its gate to a different
qubit. -/
def sTwo : Scene := ⟨[qubitP1, qubitP2, gateGm], [2, 1, 0], [⟨48, 12, 144, 24, 0, 2⟩]⟩

/-- C2 as stated is false: `sTwo` satisfies the bidirectional-link
symmetry invariant, but running connection resolution on its gate
(which has settled within threshold of the other qubit) breaks it —
the old qubit's `connected_next` still names the gate while the gate's
`connected_prev` now names the new qubit. -/
theorem claim_C2_counterexample :
    sTwo.linkSymmetricB = true ∧ (sTwo.check_connections 2).1.linkSymmetricB = false := by
  decide

/-- The gate-side half of the symmetry invariant, as a proposition:
every in-scene gate with a set `connected_prev` names a qubit whose
`connected_next` names it back. -/
def GateSide (s : Scene) : Prop :=
  ∀ cid ∈ s.sceneComps, ∀ c, s.find? cid = some c → c.component_type = TYPE_GATE →
    ∀ p, c.connected_prev = some p →
      ∃ d, s.find? p = some d ∧ d.component_type = TYPE_QUBIT ∧ d.connected_next = some cid

/-- The boolean `gateSideB` decides `GateSide`. -/
theorem gateSideB_iff (s : Scene) : s.gateSideB = true ↔ GateSide s := by
  rw [Scene.gateSideB, List.all_eq_true]
  constructor
  · intro h cid hmem c hc ht p hp
    have hb := h cid hmem
    simp only [hc] at hb
    rw [if_pos (by simpa using ht)] at hb
    rw [hp] at hb
    dsimp only at hb
    rcases hfd : s.find? p with _ | d
    · rw [hfd] at hb
      simp at hb
    · rw [hfd] at hb
      dsimp only at hb
      obtain ⟨h1, h2⟩ : d.component_type = TYPE_QUBIT ∧ d.connected_next = some cid := by
        simpa using hb
      exact ⟨d, rfl, h1, h2⟩
  · intro h cid hmem
    rcases hc : s.find? cid with _ | c
    · simp [hc]
    · by_cases ht : c.component_type = TYPE_GATE
      · rcases hp : c.connected_prev with _ | p
        · simp [hc, ht, hp]
        · obtain ⟨d, hfd, hdt, hdn⟩ := h cid hmem c hc ht p hp
          simp [hc, ht, hp, hfd, hdt, hdn]
      · simp [hc, ht]

/-- The connection branch preserves the gate-side invariant: the moving
gate's new link is symmetric by construction, the hit qubit is not a
gate, any other gate whose recorded qubit was re-pointed has been
evicted from the scene, and everything else is untouched. -/
theorem GateSide_connectTo (s : Scene) (g q : CircuitComponent)
    (hgf : s.find? g.cid = some g) (hgt : g.component_type = TYPE_GATE)
    (hqf : s.find? q.cid = some q) (hqt : q.component_type = TYPE_QUBIT)
    (hne : q.cid ≠ g.cid)
    (h : GateSide s) : GateSide (s.connectTo g q).1 := by
  intro x hx c hfc htc p hp
  have hxmem : x ∈ s.sceneComps := connectTo_comps_subset s g q x hx
  by_cases hxg : x = g.cid
  · subst hxg
    rw [connectTo_find_gate s g q hne (by rw [hgf]; rfl)] at hfc
    injection hfc with hcg
    subst hcg
    have hpq : q.cid = p := by
      have h5 : some q.cid = some p := hp
      injection h5
    subst hpq
    exact ⟨qubitAfter g q, connectTo_find_qubit s g q hne (by rw [hqf]; rfl), hqt, rfl⟩
  · by_cases hxq : x = q.cid
    · subst hxq
      rw [connectTo_find_qubit s g q hne (by rw [hqf]; rfl)] at hfc
      injection hfc with hcq
      subst hcq
      have h6 : q.component_type = TYPE_GATE := htc
      rw [hqt] at h6
      exact absurd h6 (by decide)
    · rw [connectTo_find_other s g q x hxg hxq] at hfc
      obtain ⟨d, hfd, hdt, hdn⟩ := h x hxmem c hfc htc p hp
      by_cases hpg : p = g.cid
      · subst hpg
        rw [hgf] at hfd
        injection hfd with hdg
        rw [← hdg] at hdt
        rw [hgt] at hdt
        exact absurd hdt (by decide)
      · by_cases hpq : p = q.cid
        · subst hpq
          rw [hqf] at hfd
          injection hfd with hdq
          rw [← hdq] at hdn
          obtain ⟨hcomps, -⟩ := connectTo_comps_evict s g q x hdn hxg
          rw [hcomps] at hx
          have h7 := List.of_mem_filter hx
          simp at h7
        · rw [connectTo_find_other s g q p hpg hpq]
          exact ⟨d, hfd, hdt, hdn⟩

/-- Connection resolution preserves the gate-side invariant. -/
theorem GateSide_check (s : Scene) (cid : Nat) (h : GateSide s) :
    GateSide (s.check_connections cid).1 := by
  rcases hc : s.find? cid with _ | g
  · rw [check_connections_missing s cid hc]
    exact h
  · by_cases ht : g.component_type = TYPE_QUBIT
    · rw [check_connections_qubit s cid g hc ht]
      exact h
    · rw [check_connections_eq_loop s cid g hc ht, check_loop_eq]
      rcases hfind : s.sceneComps.find? (s.candB g) with _ | qcid
      · exact h
      · obtain ⟨hneq, item, hfi, hgt, hit, -⟩ := candB_true s g qcid (List.find?_some hfind)
        simp only [hfi]
        have hicid : item.cid = qcid := Scene.find?_cid s qcid item hfi
        have hgcid : g.cid = cid := Scene.find?_cid s cid g hc
        apply GateSide_connectTo s g item ?_ hgt ?_ hit ?_ h
        · rw [hgcid]
          exact hc
        · rw [hicid]
          exact hfi
        · rw [hicid]
          exact hneq

/-- Re-writing only the position of an existing component preserves the
gate-side invariant (links and kinds are untouched). -/
theorem GateSide_updateComp_pos (s : Scene) (c : CircuitComponent) (pt : Point)
    (hc : s.find? c.cid = some c) (h : GateSide s) :
    GateSide (s.updateComp { c with pos := pt }) := by
  intro x hx c0 hf0 ht0 p hp
  have hx' : x ∈ s.sceneComps := hx
  by_cases hxc : x = c.cid
  · subst hxc
    rw [Scene.find?_updateComp_eq s { c with pos := pt } c.cid rfl (by rw [hc]; rfl)] at hf0
    injection hf0 with hc0
    subst hc0
    have ht' : c.component_type = TYPE_GATE := ht0
    have hp' : c.connected_prev = some p := hp
    obtain ⟨d, hfd, hdt, hdn⟩ := h c.cid hx' c hc ht' p hp'
    by_cases hpc : p = c.cid
    · subst hpc
      rw [hc] at hfd
      injection hfd with hdc
      refine ⟨{ c with pos := pt },
        Scene.find?_updateComp_eq s { c with pos := pt } c.cid rfl (by rw [hc]; rfl), ?_, ?_⟩
      · show c.component_type = TYPE_QUBIT
        rw [show c.component_type = d.component_type from by rw [hdc]]
        exact hdt
      · show c.connected_next = some c.cid
        rw [show c.connected_next = d.connected_next from by rw [hdc]]
        exact hdn
    · rw [Scene.find?_updateComp_ne s { c with pos := pt } p hpc]
      exact ⟨d, hfd, hdt, hdn⟩
  · rw [Scene.find?_updateComp_ne s { c with pos := pt } x hxc] at hf0
    obtain ⟨d, hfd, hdt, hdn⟩ := h x hx' c0 hf0 ht0 p hp
    by_cases hpc : p = c.cid
    · subst hpc
      rw [hc] at hfd
      injection hfd with hdc
      refine ⟨{ c with pos := pt },
        Scene.find?_updateComp_eq s { c with pos := pt } c.cid rfl (by rw [hc]; rfl), ?_, ?_⟩
      · show c.component_type = TYPE_QUBIT
        rw [hdc]
        exact hdt
      · show c.connected_next = some x
        rw [hdc]
        exact hdn
    · rw [Scene.find?_updateComp_ne s { c with pos := pt } p hpc]
      exact ⟨d, hfd, hdt, hdn⟩

/-- The drag-release handler (nearest snap followed by connection
resolution) preserves the gate-side invariant. -/
theorem GateSide_mouseRelease (s : Scene) (cid : Nat) (pt : PointF) (h : GateSide s) :
    GateSide (s.mouseReleaseEvent cid pt).1 := by
  unfold Scene.mouseReleaseEvent
  rcases hc : s.find? cid with _ | c
  · exact h
  · dsimp only
    apply GateSide_check
    have hcid : c.cid = cid := Scene.find?_cid s cid c hc
    exact GateSide_updateComp_pos s c _ (by rw [hcid]; exact hc) h

/-- Appending a fresh-identity component to a heap that does not hold
that identity, then searching for the identity, yields the component. -/
theorem find?_heap_append_fresh (heap : List CircuitComponent) (nc : CircuitComponent)
    (y : Nat) (hcid : nc.cid = y)
    (hnone : heap.find? (fun c => c.cid == y) = none) :
    (heap ++ [nc]).find? (fun c => c.cid == y) = some nc := by
  rw [List.find?_append, hnone]
  simp [hcid]

/-- Appending a component does not change a search for a different
identity. -/
theorem find?_heap_append_ne (heap : List CircuitComponent) (nc : CircuitComponent) (y : Nat)
    (hy : y ≠ nc.cid) :
    (heap ++ [nc]).find? (fun c => c.cid == y) = heap.find? (fun c => c.cid == y) := by
  rw [List.find?_append]
  rcases hsy : heap.find? (fun c => c.cid == y) with _ | cy
  · have hy2 : ¬(nc.cid = y) := fun hh => hy hh.symm
    simp [hy2]
  · rw [hsy]
    rfl

/-- Dropping a fresh component (both links unset) preserves the
gate-side invariant. -/
theorem GateSide_dropEvent (s : Scene) (text : String) (pos : Point) (scale : ℤ)
    (fresh : Nat) (pw ph : ℤ) (s2 : Scene)
    (hfresh : fresh ∉ s.heap.map (fun c => c.cid))
    (hdrop : s.dropEvent text pos scale fresh pw ph = some s2)
    (h : GateSide s) : GateSide s2 := by
  have hfnone : s.heap.find? (fun c => c.cid == fresh) = none := by
    rw [List.find?_eq_none]
    intro c hcmem hbeq
    exact hfresh (List.mem_map.mpr ⟨c, hcmem, by simpa using hbeq⟩)
  unfold Scene.dropEvent at hdrop
  rcases hsplit : pySplit ',' text with _ | ⟨d0, _ | ⟨d1, rest⟩⟩
  · rw [hsplit] at hdrop
    exact absurd hdrop (by simp)
  · rw [hsplit] at hdrop
    exact absurd hdrop (by simp)
  · rw [hsplit] at hdrop
    dsimp only at hdrop
    injection hdrop with hs2
    subst hs2
    intro x hx c0 hf0 ht0 p hp
    rw [Scene.find?] at hf0
    dsimp only at hf0
    by_cases hxf : x = fresh
    · rw [hxf, find?_heap_append_fresh s.heap _ fresh rfl hfnone] at hf0
      injection hf0 with hc0
      rw [← hc0] at hp
      simp at hp
    · rw [find?_heap_append_ne s.heap _ x hxf] at hf0
      have hxmem : x ∈ s.sceneComps := by
        rcases List.mem_cons.mp hx with h1 | h1
        · exact absurd h1 hxf
        · exact h1
      obtain ⟨d, hfd, hdt, hdn⟩ := h x hxmem c0 hf0 ht0 p hp
      have hpf : p ≠ fresh := by
        intro hpeq
        rw [Scene.find?, hpeq, hfnone] at hfd
        exact Option.noConfusion hfd
      rw [Scene.find?]
      dsimp only
      rw [find?_heap_append_ne s.heap _ p hpf]
      exact ⟨d, hfd, hdt, hdn⟩

/-- The scene produced by dropping the gate payload `"1,Pauli-Y"` onto
`sFresh` at raw position `(30, 7)` with identity 5. -/
def sDropped : Scene :=
  ⟨[qubitQ0, gateGnew, ⟨5, TYPE_GATE, "Pauli-Y", 24, 48, 48, ⟨24, 0⟩, none, none⟩],
   [5, 1, 0], []⟩

/-- C2 amended: the qubit-side half of the symmetry invariant is not
preserved (see the counterexample: re-binding a connected gate to a
different qubit leaves the old qubit's `connected_next` pointing at the
gate while the gate's `connected_prev` points at the new qubit), but
the gate-side half is an invariant of every operation: connection
resolution, drag-release snapping, and dropping a component with a
fresh identity each map a scene in which every in-scene gate's set
`connected_prev` names a qubit whose `connected_next` names it back to
a scene with the same property. -/
theorem claim_C2_amended :
    (∀ (s : Scene) (cid : Nat), s.gateSideB = true →
      (s.check_connections cid).1.gateSideB = true) ∧
    (∀ (s : Scene) (cid : Nat) (pt : PointF), s.gateSideB = true →
      (s.mouseReleaseEvent cid pt).1.gateSideB = true) ∧
    (∀ (s : Scene) (text : String) (pos : Point) (scale : ℤ) (fresh : Nat) (pw ph : ℤ)
        (s2 : Scene), fresh ∉ s.heap.map (fun c => c.cid) →
      s.dropEvent text pos scale fresh pw ph = some s2 →
      s.gateSideB = true → s2.gateSideB = true) := by
  refine ⟨?_, ?_, ?_⟩
  · intro s cid hs
    exact (gateSideB_iff _).mpr (GateSide_check s cid ((gateSideB_iff s).mp hs))
  · intro s cid pt hs
    exact (gateSideB_iff _).mpr (GateSide_mouseRelease s cid pt ((gateSideB_iff s).mp hs))
  · intro s text pos scale fresh pw ph s2 hfresh hdrop hs
    exact (gateSideB_iff _).mpr
      (GateSide_dropEvent s text pos scale fresh pw ph s2 hfresh hdrop ((gateSideB_iff s).mp hs))

/-- Witness for the amended C2: the gate-side invariant survives
connection resolution and a drag release on `sTwo`, and a concrete drop
onto `sFresh`. -/
theorem claim_C2_amended_witness :
    (sTwo.check_connections 2).1.gateSideB = true ∧
    (sTwo.mouseReleaseEvent 2 ⟨970, 3⟩).1.gateSideB = true ∧
    sDropped.gateSideB = true :=
  ⟨claim_C2_amended.1 sTwo 2 (by decide),
   claim_C2_amended.2.1 sTwo 2 ⟨970, 3⟩ (by decide),
   claim_C2_amended.2.2 sFresh "1,Pauli-Y" ⟨30, 7⟩ 24 5 48 48 sDropped
     (by decide) rfl (by decide)⟩
